import Mathlib

/-!
Verification development for the TFRT async dispatch layer
(`include/tfrt/host_context/async_dispatch.h`).

The header composes future handles (`AsyncValue` cells) with an external
execution substrate.  We shallowly embed:

* the future-handle cell and its three states (unconstructed / concrete /
  error), with a resolution counter so that "resolved exactly once" is a
  provable statement about the model;
* the value-returning submission overloads `EnqueueWork`,
  `EnqueueBlockingWork` and `RunBlockingWork` (template bodies at lines
  109-119, 133-142, 154-168 and 180-193 of the header), with the substrate's
  acceptance decision as an explicit boolean parameter;
* the `AndThen` overloads (lines 44-58), `AwaitRange` (lines 72-84) and the
  `Await` overloads (lines 86-90, 203, 205-215);
* the type-level `internal::UnwrapExpected` (lines 30-41);
* the countdown latch and `RunWhenReady`, whose implementations live outside
  the given sources and are modelled from the specification.
-/

namespace Tfrt

/-- State of an `AsyncValue` cell: exactly one of *unresolved*
(`unconstructed`), *resolved-with-value* (`concrete`) or
*resolved-with-error* (`error`). -/
inductive AVState (R : Type) where
  | unconstructed : AVState R
  | concrete : R → AVState R
  | error : String → AVState R
deriving DecidableEq, Repr

/-- A cell is available once it left the unresolved state (value or error). -/
def AVState.isAvailable {R : Type} : AVState R → Bool
  | .unconstructed => false
  | .concrete _ => true
  | .error _ => true

/-- A future-handle cell together with the number of resolution operations
(`emplace` / `SetError`) that have been applied to it.  In the C++ code a
second resolution is a fatal contract violation; the model records the count
so that "resolved exactly once" is provable. -/
structure AsyncCell (R : Type) where
  state : AVState R
  resolveCount : Nat
deriving DecidableEq, Repr

/-- Model of `MakeUnconstructedAsyncValueRef<R>(host)`: a fresh cell in the
unresolved state, never yet resolved. -/
def MakeUnconstructedAsyncValueRef (R : Type) : AsyncCell R :=
  { state := .unconstructed, resolveCount := 0 }

/-- Model of `result.emplace(v)`: resolve the cell with a value. -/
def AsyncCell.emplace {R : Type} (c : AsyncCell R) (v : R) : AsyncCell R :=
  { state := .concrete v, resolveCount := c.resolveCount + 1 }

/-- Model of `result.SetError(msg)`: resolve the cell with an error message. -/
def AsyncCell.SetError {R : Type} (c : AsyncCell R) (msg : String) : AsyncCell R :=
  { state := .error msg, resolveCount := c.resolveCount + 1 }

/-- Value-returning `EnqueueWork(exec_ctx, work)` (header lines 109-119):
pre-create an unconstructed cell, wrap the callable so that running it
emplaces its result.  Modelled from the spec: the void-returning
`EnqueueWork(const ExecutionContext&, unique_function)` substrate primitive
(line 100) is only declared here; per spec §4.3 non-blocking submission is
always accepted and the submitted task runs exactly once, so the wrapped
lambda body `result.emplace(work())` is applied once. -/
def EnqueueWork_ctx_value {R : Type} (work : Unit → R) : AsyncCell R :=
  let result := MakeUnconstructedAsyncValueRef R
  result.emplace (work ())

/-- Value-returning `EnqueueWork(host, work)` (header lines 133-142); body
identical to the `ExecutionContext` overload.  Modelled from the spec: the
void-returning `EnqueueWork(HostContext*, unique_function)` (line 125) is
only declared here; non-blocking submission is always accepted and runs the
task exactly once. -/
def EnqueueWork_host_value {R : Type} (work : Unit → R) : AsyncCell R :=
  let result := MakeUnconstructedAsyncValueRef R
  result.emplace (work ())

/-- Value-returning `EnqueueBlockingWork(host, work)` (header lines 154-168).
Modelled from the spec: the boolean-returning
`EnqueueBlockingWork(HostContext*, unique_function)` (line 144) is only
declared here; per spec §6 it reports `accepted : Bool`, and an accepted
task is run exactly once by the substrate.  If accepted, the wrapped lambda
`result.emplace(work())` runs; if not, the header's own code resolves the
cell with `SetError("Failed to enqueue blocking work.")`. -/
def EnqueueBlockingWork_value {R : Type} (accepted : Bool) (work : Unit → R) :
    AsyncCell R :=
  let result := MakeUnconstructedAsyncValueRef R
  if accepted then result.emplace (work ())
  else result.SetError "Failed to enqueue blocking work."

/-- Value-returning `RunBlockingWork(host, work)` (header lines 180-193).
Modelled from the spec: the boolean-returning
`RunBlockingWork(HostContext*, unique_function)` (line 170) is only declared
here; it reports `accepted : Bool` and an accepted task runs exactly once
(possibly synchronously on the calling thread).  On rejection the header
resolves the cell with `SetError("Failed to run blocking work.")`. -/
def RunBlockingWork_value {R : Type} (accepted : Bool) (work : Unit → R) :
    AsyncCell R :=
  let result := MakeUnconstructedAsyncValueRef R
  if accepted then result.emplace (work ())
  else result.SetError "Failed to run blocking work."

/-- C1: for every non-void-returning callable submitted via the
value-returning `EnqueueBlockingWork` or `RunBlockingWork` overloads, the
returned handle is resolved exactly once, by exactly one of the two paths:
the wrapped callable running to completion (emplacing its result) exactly
when the submission was accepted, or the immediate `SetError` path exactly
when it was rejected; no execution leaves the handle unresolved and none
resolves it twice. -/
theorem blocking_work_handle_resolved_exactly_once :
    ∀ (R : Type) (accepted : Bool) (work : Unit → R),
      ((EnqueueBlockingWork_value accepted work).resolveCount = 1
        ∧ (EnqueueBlockingWork_value accepted work).state.isAvailable = true
        ∧ ((EnqueueBlockingWork_value accepted work).state
              = AVState.concrete (work ()) ↔ accepted = true)
        ∧ ((∃ msg, (EnqueueBlockingWork_value accepted work).state
              = AVState.error msg) ↔ accepted = false))
      ∧ ((RunBlockingWork_value accepted work).resolveCount = 1
        ∧ (RunBlockingWork_value accepted work).state.isAvailable = true
        ∧ ((RunBlockingWork_value accepted work).state
              = AVState.concrete (work ()) ↔ accepted = true)
        ∧ ((∃ msg, (RunBlockingWork_value accepted work).state
              = AVState.error msg) ↔ accepted = false)) := by
  intro R accepted work
  cases accepted <;>
    simp [EnqueueBlockingWork_value, RunBlockingWork_value,
      MakeUnconstructedAsyncValueRef, AsyncCell.emplace, AsyncCell.SetError,
      AVState.isAvailable]

/-- C2: for every non-void-returning callable submitted via the
value-returning `EnqueueBlockingWork` overload, the returned handle is
resolved to an error carrying the fixed descriptive message
`"Failed to enqueue blocking work."` (identifying it as an enqueue failure)
precisely when the substrate rejected the submission: the error branch is
taken if and only if the boolean-returning `EnqueueBlockingWork` returned
false. -/
theorem enqueue_blocking_rejection_resolves_error :
    ∀ (R : Type) (accepted : Bool) (work : Unit → R),
      ((EnqueueBlockingWork_value accepted work).state
          = AVState.error "Failed to enqueue blocking work.")
        ↔ accepted = false := by
  intro R accepted work
  cases accepted <;>
    simp [EnqueueBlockingWork_value, MakeUnconstructedAsyncValueRef,
      AsyncCell.emplace, AsyncCell.SetError]

/-- C3 counterexample: at the concrete rejected submission of the callable
returning `0 : Nat`, `RunBlockingWork` resolves the handle with
`"Failed to run blocking work."`, which is not the queued-blocking path's
string: the rejected `RunBlockingWork` handle differs from the rejected
`EnqueueBlockingWork` handle, so the two paths do not carry the same fixed
descriptive string. -/
theorem run_blocking_error_string_differs :
    (RunBlockingWork_value false (fun _ => (0 : Nat))).state
        = AVState.error "Failed to run blocking work."
      ∧ (RunBlockingWork_value false (fun _ => (0 : Nat))).state
        ≠ (EnqueueBlockingWork_value false (fun _ => (0 : Nat))).state := by
  constructor
  · rfl
  · simp [RunBlockingWork_value, EnqueueBlockingWork_value,
      MakeUnconstructedAsyncValueRef, AsyncCell.SetError]

/-- C3 amended: `RunBlockingWork` has the same admission-contract shape as
`EnqueueBlockingWork` — on rejection the returned handle is resolved to an
error carrying a fixed descriptive string — but the string is its own,
`"Failed to run blocking work."`, not the queued-blocking submission path's
`"Failed to enqueue blocking work."`; the error branch is taken exactly when
the submission was rejected. -/
theorem run_blocking_rejection_resolves_own_error :
    ∀ (R : Type) (accepted : Bool) (work : Unit → R),
      ((RunBlockingWork_value accepted work).state
          = AVState.error "Failed to run blocking work.")
        ↔ accepted = false := by
  intro R accepted work
  cases accepted <;>
    simp [RunBlockingWork_value, MakeUnconstructedAsyncValueRef,
      AsyncCell.emplace, AsyncCell.SetError]

/-- C5: for every deterministic callable with a non-void result submitted
via either value-returning `EnqueueWork` overload, the returned handle, once
resolved, holds a value equal to the callable's return value; in particular
a callable returning `a + b` for fixed naturals `a`, `b` yields a handle
resolved to `a + b`. -/
theorem enqueueWork_resolves_to_work_result :
    ∀ (R : Type) (work : Unit → R),
      ((EnqueueWork_ctx_value work).state = AVState.concrete (work ())
        ∧ (EnqueueWork_host_value work).state = AVState.concrete (work ()))
      ∧ ∀ a b : Nat,
          (EnqueueWork_host_value (fun _ => a + b)).state
            = AVState.concrete (a + b) := by
  intro R work
  exact ⟨⟨rfl, rfl⟩, fun a b => rfl⟩

/-! ### Type-level result extraction (`internal::UnwrapExpected`) -/

/-- A C++ result-type expression as seen by `internal::UnwrapExpected`:
either a plain type or an `Expected<·>` wrapping. -/
inductive RTy where
  | base : String → RTy
  | Expected : RTy → RTy
deriving DecidableEq, Repr

/-- Model of `internal::UnwrapExpected` (header lines 30-37): the primary
template maps any type to itself; the `Expected<T>` specialization maps it
to `T`. -/
def UnwrapExpected : RTy → RTy
  | .Expected t => t
  | .base n => .base n

/-- Model of `internal::AsyncResultTypeT<F>` (header lines 39-40): the element type
of the returned handle is `UnwrapExpected` applied to the callable's result
type. -/
def AsyncResultTypeT (resultOf : RTy) : RTy :=
  UnwrapExpected resultOf

/-- Element type of the handle returned by the value-returning `EnqueueWork`
overloads (header lines 109, 133): `R = internal::AsyncResultTypeT<F>`. -/
def enqueueWorkHandleType (resultOf : RTy) : RTy :=
  AsyncResultTypeT resultOf

/-- Element type of the handle returned by the value-returning
`EnqueueBlockingWork` overload (header line 154). -/
def enqueueBlockingWorkHandleType (resultOf : RTy) : RTy :=
  AsyncResultTypeT resultOf

/-- Element type of the handle returned by the value-returning
`RunBlockingWork` overload (header line 180). -/
def runBlockingWorkHandleType (resultOf : RTy) : RTy :=
  AsyncResultTypeT resultOf

/-- No type equals its own `Expected` wrapping. -/
theorem rty_expected_ne (t : RTy) : RTy.Expected t ≠ t := by
  induction t with
  | base n => simp
  | Expected s ih =>
      intro h
      exact ih (by injection h)

/-- C7: for a callable whose result type is `Expected<T>`, all three
value-returning submission overloads produce a handle for `T` (one layer
unwrapped, so the handle type is never the `Expected` wrapping itself), a
nested `Expected<Expected<T>>` is unwrapped exactly once to `Expected<T>`,
and a plain result type is left unchanged. -/
theorem unwrapExpected_unwraps_one_layer :
    ∀ t : RTy,
      (enqueueWorkHandleType (RTy.Expected t) = t
        ∧ enqueueBlockingWorkHandleType (RTy.Expected t) = t
        ∧ runBlockingWorkHandleType (RTy.Expected t) = t)
      ∧ AsyncResultTypeT (RTy.Expected (RTy.Expected t)) = RTy.Expected t
      ∧ AsyncResultTypeT (RTy.Expected t) ≠ RTy.Expected t
      ∧ ∀ n : String, AsyncResultTypeT (RTy.base n) = RTy.base n := by
  intro t
  refine ⟨⟨rfl, rfl, rfl⟩, rfl, ?_, fun n => rfl⟩
  simpa [AsyncResultTypeT, enqueueWorkHandleType, UnwrapExpected] using
    fun h => rty_expected_ne t h.symm

/-! ### Continuation registration (`AndThen`) -/

/-- An `AsyncValue` cell as seen by continuation registration: its state
plus the list of registered continuations (abstract callbacks of type `C`).
`AsyncValue::AndThen` appends the callback to the cell's continuation
list (to run at resolution, or immediately if already resolved). -/
structure AsyncValue (R C : Type) where
  state : AVState R
  conts : List C
deriving DecidableEq

/-- The underlying cell's continuation registration: the callback is
forwarded unchanged onto the cell's continuation list. -/
def AsyncValue.AndThen {R C : Type} (v : AsyncValue R C) (f : C) :
    AsyncValue R C :=
  { v with conts := v.conts ++ [f] }

/-- Model of `RCReference<AsyncValue>`: a ref-counted handle to a cell. -/
structure RCReference (R C : Type) where
  get : AsyncValue R C
deriving DecidableEq

/-- Model of `AsyncValueRef<T>`: a strongly-typed ref-counted handle to a cell. -/
structure AsyncValueRef (R C : Type) where
  value : AsyncValue R C
deriving DecidableEq

/-- Modelled from the spec: `AsyncValueRef<T>::AndThen`. the typed handle's
member `AndThen` lives in the re-exported `tsl` header, not under the given
sources; per spec §4.1 it registers the callback on the underlying cell,
identically for every handle shape. -/
def AsyncValueRef.AndThen {R C : Type} (r : AsyncValueRef R C) (f : C) :
    AsyncValue R C :=
  r.value.AndThen f

/-- Free `AndThen(AsyncValue*, f)` overload (header lines 45-48). -/
def AndThenPtr {R C : Type} (value : AsyncValue R C) (f : C) :
    AsyncValue R C :=
  value.AndThen f

/-- Free `AndThen(const RCReference<AsyncValue>&, f)` overload (header
lines 50-53): dereferences to the same cell and forwards `f`. -/
def AndThenRC {R C : Type} (value : RCReference R C) (f : C) :
    AsyncValue R C :=
  value.get.AndThen f

/-- Free `AndThen(const AsyncValueRef<T>&, f)` overload (header
lines 55-58). -/
def AndThenRef {R C : Type} (value : AsyncValueRef R C) (f : C) :
    AsyncValue R C :=
  value.AndThen f

/-- C8: the three free `AndThen` overloads — on a bare `AsyncValue*`, on an
`RCReference<AsyncValue>` and on a typed `AsyncValueRef<T>` referring to the
same cell — each forward the callback `f` unchanged to the same underlying
cell's continuation registration, so all three produce the identical
registration result, which appends exactly `f` and leaves the cell state
untouched. -/
theorem andThen_uniform_across_handle_shapes :
    ∀ (R C : Type) (v : AsyncValue R C) (f : C),
      AndThenPtr v f = v.AndThen f
      ∧ AndThenRC (RCReference.mk v) f = v.AndThen f
      ∧ AndThenRef (AsyncValueRef.mk v) f = v.AndThen f
      ∧ (v.AndThen f).conts = v.conts ++ [f]
      ∧ (v.AndThen f).state = v.state := by
  intro R C v f
  exact ⟨rfl, rfl, rfl, rfl, rfl⟩

/-! ### Countdown latch and blocking join -/

/-- Modelled from the spec: `tfrt::latch` (`support/latch.h`, not among the
given sources); per spec §3 it holds a non-negative count, `count_down`
decrements it by one, and `wait()` returns exactly when the count has
reached zero (`released`). -/
structure Latch where
  count : Nat
deriving DecidableEq, Repr

/-- One `count_down()` call: decrement the count by one. -/
def Latch.count_down (l : Latch) : Latch :=
  { count := l.count - 1 }

/-- Whether `wait()` returns: the count has reached zero. -/
def Latch.released (l : Latch) : Bool :=
  l.count == 0

/-- Model of `AwaitRange(values)` (header lines 72-84): construct a latch
initialized to `std::distance(values.begin(), values.end())`, register on
each value (via `AndThen`) a continuation calling
`values_remaining.count_down()`, then `wait()`.  A continuation has fired
precisely for the cells that have resolved (left the unresolved state), so
the latch observed at any quiescent moment is the initial latch after one
`count_down` per available cell; `AwaitRange` is generic over the range, so
the model takes the projection `cellOf` from range elements to their cells. -/
def AwaitRange {α R : Type} (cellOf : α → AVState R) (values : List α) :
    Latch :=
  ((values.map cellOf).filter AVState.isAvailable).foldl
    (fun l _ => l.count_down) (Latch.mk values.length)

theorem latch_foldl_count_down {β : Type} (l : List β) (n : Nat) :
    (l.foldl (fun s _ => Latch.count_down s) (Latch.mk n)).count
      = n - l.length := by
  induction l generalizing n with
  | nil => rfl
  | cons a tl ih =>
      rw [List.foldl_cons]
      show (tl.foldl (fun s _ => Latch.count_down s) (Latch.mk (n - 1))).count
        = n - (a :: tl).length
      rw [ih, List.length_cons, Nat.sub_sub, Nat.add_comm]

/-- C4: `AwaitRange` builds a countdown latch initialized to the number `N`
of handles and registers one decrementing continuation per handle, so the
latch count equals `N` minus the number of resolved handles; the latch is
released — i.e. the blocked `wait()` returns — exactly when every handle's
cell is no longer unresolved; and for the empty collection the latch starts
at zero, so the call returns immediately. -/
theorem awaitRange_returns_iff_all_resolved :
    ∀ (α R : Type) (cellOf : α → AVState R) (values : List α),
      ((AwaitRange cellOf values).count
          = values.length
            - ((values.map cellOf).filter AVState.isAvailable).length)
      ∧ ((AwaitRange cellOf values).released = true
          ↔ (values.map cellOf).all AVState.isAvailable = true)
      ∧ (AwaitRange cellOf ([] : List α)).count = 0
      ∧ (AwaitRange cellOf ([] : List α)).released = true := by
  intro α R cellOf values
  have hcount : (AwaitRange cellOf values).count
      = values.length
        - ((values.map cellOf).filter AVState.isAvailable).length := by
    unfold AwaitRange
    rw [latch_foldl_count_down]
  refine ⟨hcount, ?_, rfl, rfl⟩
  rw [Latch.released, hcount]
  have hle : ((values.map cellOf).filter AVState.isAvailable).length
      ≤ (values.map cellOf).length :=
    List.length_filter_le _ _
  rw [List.length_map] at hle
  constructor
  · intro h
    have hz : values.length
        - ((values.map cellOf).filter AVState.isAvailable).length = 0 := by
      simpa using h
    have hlen : ((values.map cellOf).filter AVState.isAvailable).length
        = (values.map cellOf).length := by
      rw [List.length_map]
      omega
    have hfilter : (values.map cellOf).filter AVState.isAvailable
        = values.map cellOf :=
      (List.filter_sublist _).eq_of_length hlen
    exact List.all_eq_true.mpr (List.filter_eq_self.mp hfilter)
  · intro h
    have hfilter : (values.map cellOf).filter AVState.isAvailable
        = values.map cellOf :=
      List.filter_eq_self.mpr (List.all_eq_true.mp h)
    rw [hfilter, List.length_map]
    simp

/-- Model of the `Await(ArrayRef<AsyncValue*>)` overload (header line 86):
its whole body is `AwaitRange(values)`. -/
def Await_values {R C : Type} (values : List (AsyncValue R C)) : Latch :=
  AwaitRange AsyncValue.state values

/-- Model of the `Await(ArrayRef<RCReference<AsyncValue>>)` overload
(header lines 88-90): its whole body is `AwaitRange(rc_refs)`. -/
def Await_rc_refs {R C : Type} (rc_refs : List (RCReference R C)) : Latch :=
  AwaitRange (fun r => r.get.state) rc_refs

/-- C9: the two non-context `Await` overloads are definitionally the
application of `AwaitRange` to the same collection (with the overloaded
`AndThen` resolving to the cell behind each element), adding no behavior of
their own; consequently the `AwaitRange` release condition holds of both
verbatim. -/
theorem await_overloads_are_awaitRange :
    ∀ (R C : Type) (values : List (AsyncValue R C))
      (rc_refs : List (RCReference R C)),
      Await_values values = AwaitRange AsyncValue.state values
      ∧ Await_rc_refs rc_refs = AwaitRange (fun r => r.get.state) rc_refs
      ∧ ((Await_values values).released = true
          ↔ (values.map AsyncValue.state).all AVState.isAvailable = true)
      ∧ ((Await_rc_refs rc_refs).released = true
          ↔ (rc_refs.map fun r => r.get.state).all AVState.isAvailable
              = true) := by
  intro R C values rc_refs
  refine ⟨rfl, rfl, ?_, ?_⟩
  · exact (awaitRange_returns_iff_all_resolved (AsyncValue R C) R
      AsyncValue.state values).2.1
  · exact (awaitRange_returns_iff_all_resolved (RCReference R C) R
      (fun r => r.get.state) rc_refs).2.1

/-! ### Substrate-routed Await and the single-handle overload -/

/-- Modelled from the spec: `Await(HostContext*,
ArrayRef<RCReference<AsyncValue>>)` (header line 203) is only declared here;
per spec §4.2 the substrate-routed variant is the same blocking-join
algorithm behind an alternate entry point, so its observable is whether the
wait is unblocked: true exactly when every listed cell has resolved. -/
def Await_host {R C : Type} (values : List (RCReference R C)) : Bool :=
  (values.map fun r => r.get.state).all AVState.isAvailable

/-- Model of `av_ref.CopyRef()`: produce a new ref-counted reference to the
same underlying cell, leaving the original handle intact; the pair returns
the copy together with the unchanged original. -/
def AsyncValueRef.CopyRef {R C : Type} (r : AsyncValueRef R C) :
    RCReference R C × AsyncValueRef R C :=
  (RCReference.mk r.value, r)

/-- Model of the single-value `Await(host, av_ref)` (header lines 205-215):
its whole body is `Await(host, {av_ref.CopyRef()})`. -/
def Await_host_single {R C : Type} (av_ref : AsyncValueRef R C) : Bool :=
  Await_host [(av_ref.CopyRef).1]

/-- C10: the single-value `Await(host, av_ref)` equals the array
`Await(host, values)` applied to the singleton list holding a copied
reference to the same underlying cell; the copy refers to `av_ref`'s own
cell, the caller's `av_ref` is returned unchanged by `CopyRef` (copied, not
consumed), and the single-value wait unblocks exactly on that one cell's
availability. -/
theorem await_single_is_singleton_array_await :
    ∀ (R C : Type) (av_ref : AsyncValueRef R C),
      Await_host_single av_ref = Await_host [(av_ref.CopyRef).1]
      ∧ ((av_ref.CopyRef).1).get = av_ref.value
      ∧ (av_ref.CopyRef).2 = av_ref
      ∧ Await_host_single av_ref = av_ref.value.state.isAvailable := by
  intro R C av_ref
  refine ⟨rfl, rfl, rfl, ?_⟩
  simp [Await_host_single, Await_host, AsyncValueRef.CopyRef]

/-! ### Ready-set continuation (`RunWhenReady`) -/

/-- Modelled from the spec: `RunWhenReady` (header lines 195-201) is only
declared among the given sources; per spec §4.4 it keeps a shared counter
initialized to `N`, registers on each handle a continuation that decrements
it, runs the callback when the counter reaches zero, and for `N = 0` invokes
the callback synchronously before returning.  `RunWhenReadyInvocations n
fired` counts the callback runs once `fired` of the `n` registered
continuations have fired: one synchronous run when `n = 0`, plus one run for
every decrement step that brings the counter `n - k` to zero. -/
def RunWhenReadyInvocations (n fired : Nat) : Nat :=
  (if n = 0 then 1 else 0)
    + (List.range fired).countP (fun k => n - (k + 1) == 0)

/-- C6: with `fired ≤ n` handles resolved so far, the `RunWhenReady`
callback has run exactly once when all `n` handles have resolved and zero
times before that; in particular for `n = 0` (where `fired = 0 = n`) it has
already run, synchronously, exactly once. -/
theorem runWhenReady_callback_fires_exactly_once :
    ∀ n fired : Nat, fired ≤ n →
      RunWhenReadyInvocations n fired = if fired = n then 1 else 0 := by
  intro n fired h
  rcases Nat.lt_or_ge fired n with hlt | hge
  · have hn : ¬n = 0 := by omega
    have hne : ¬fired = n := Nat.ne_of_lt hlt
    have hcount : (List.range fired).countP (fun k => n - (k + 1) == 0)
        = 0 := by
      rw [List.countP_eq_zero]
      intro k hk
      have hkf : k < fired := List.mem_range.mp hk
      simp only [beq_iff_eq]
      omega
    simp [RunWhenReadyInvocations, hn, hne, hcount]
  · have heq : fired = n := Nat.le_antisymm h hge
    subst heq
    cases fired with
    | zero => simp [RunWhenReadyInvocations]
    | succ m =>
        have hcount : (List.range (m + 1)).countP
            (fun k => m + 1 - (k + 1) == 0) = 1 := by
          rw [List.range_succ, List.countP_append]
          have h0 : (List.range m).countP
              (fun k => m + 1 - (k + 1) == 0) = 0 := by
            rw [List.countP_eq_zero]
            intro k hk
            have hkm : k < m := List.mem_range.mp hk
            simp only [beq_iff_eq]
            omega
          rw [h0]
          simp
        unfold RunWhenReadyInvocations
        rw [hcount]
        simp

/-- C6 witness: applying the exactly-once theorem at concrete inputs — with
3 handles, after 2 of 3 resolutions the callback has not run, after all 3 it
has run exactly once, and with 0 handles it has already run exactly once. -/
theorem runWhenReady_callback_fires_exactly_once_witness :
    RunWhenReadyInvocations 3 2 = 0
      ∧ RunWhenReadyInvocations 3 3 = 1
      ∧ RunWhenReadyInvocations 0 0 = 1 := by
  refine ⟨?_, ?_, ?_⟩
  · have h := runWhenReady_callback_fires_exactly_once 3 2 (by decide)
    simpa using h
  · have h := runWhenReady_callback_fires_exactly_once 3 3 (by decide)
    simpa using h
  · have h := runWhenReady_callback_fires_exactly_once 0 0 (by decide)
    simpa using h

end Tfrt
